import Mathlib

/-!
Shallow embedding of the field-discovery-and-matching core of `src/app.py`
(AI Form Filler).  Pure logic is translated directly; the browser side
effects performed by `_fill_discovered` (Playwright element actions, which
may raise) are modelled by per-control success flags together with an
explicit trace of the action that was dispatched.  All strings are treated
as ASCII, which covers the fixed vocabulary and every input appearing in
the claims.
-/

/-- Python values as they occur in the caller-supplied `data` mapping
(`Dict[str, Any]` in `FillRequest`): strings, booleans, integers and
`None`.  `vNone` doubles as Python's `None`, which the source also uses
for "no value resolved". -/
inductive PyVal where
  | vStr : String → PyVal
  | vBool : Bool → PyVal
  | vInt : Int → PyVal
  | vNone : PyVal
deriving DecidableEq

/-- Python `str(value)` on the modelled values. -/
def pyStr : PyVal → String
  | .vStr s => s
  | .vBool true => "True"
  | .vBool false => "False"
  | .vInt n => toString n
  | .vNone => "None"

/-- ASCII model of Python `str.lower` applied to one character. -/
def lowerChar (c : Char) : Char :=
  if 'A' ≤ c ∧ c ≤ 'Z' then Char.ofNat (c.toNat + 32) else c

/-- ASCII model of Python `str.lower`. -/
def pyLower (s : String) : String := ⟨s.data.map lowerChar⟩

/-- Word character in the sense of the regex `\w` (ASCII model):
letters, digits and underscore. -/
def isWordChar (c : Char) : Bool := c.isAlphanum || c = '_'

/-- A regex word boundary `\b` holds at the start of the text (`none`)
or after a non-word character. -/
def boundaryOk : Option Char → Bool
  | none => true
  | some c => !(isWordChar c)

/-- Containment of `needle` as a contiguous subsequence of the character
list, modelling Python's `needle in hay` on strings. -/
def containsSeq (needle : List Char) : List Char → Bool
  | [] => needle.isEmpty
  | c :: rest => needle.isPrefixOf (c :: rest) || containsSeq needle rest

/-- Python `w in t` for strings (substring containment). -/
def substrB (t w : String) : Bool := containsSeq w.data t.data

/-- The word `w` occurs at the front of `s` and is followed by a word
boundary (end of text or a non-word character). -/
def wordAtFront (w : List Char) (s : List Char) : Bool :=
  w.isPrefixOf s && boundaryOk ((s.drop w.length).head?)

/-- Scan for a word-boundary-delimited occurrence; `pre` is the character
immediately before the current position. -/
def cwAux (w : List Char) : Option Char → List Char → Bool
  | _, [] => false
  | pre, c :: rest =>
      (boundaryOk pre && wordAtFront w (c :: rest)) || cwAux w (some c) rest

/-- Model of `re.search(r"\b w \b", t)` for a single literal word `w`
whose first and last characters are word characters (true of every
alternative used in `_guess_canonical_key`). -/
def containsWordB (t w : String) : Bool := cwAux w.data none t.data

/-- Model of `re.search(r"\b(w1|w2|...)\b", t)`: some alternative occurs
with word boundaries. -/
def wordAny (t : String) (ws : List String) : Bool :=
  ws.any (fun w => containsWordB t w)

/-- The fixed canonical vocabulary `CANONICAL_KEYS` of `src/app.py`
(Python dict in insertion order). -/
def CANONICAL_KEYS : List (String × List String) :=
  [ ("first_name", ["first name", "given name", "forename", "fname"]),
    ("last_name", ["last name", "surname", "family name", "lname"]),
    ("email", ["email", "e-mail", "mail"]),
    ("phone", ["phone", "telephone", "mobile", "cell"]),
    ("company", ["company", "organization", "organisation", "employer"]),
    ("address_line1", ["address", "street", "address line 1", "addr1"]),
    ("city", ["city", "town"]),
    ("state", ["state", "region", "province", "county"]),
    ("postal_code", ["zip", "zipcode", "postal", "postcode"]),
    ("country", ["country", "nation"]),
    ("dob", ["date of birth", "birthday", "birth date", "dob"]),
    ("accept_tos", ["terms", "tos", "agree", "agreement", "privacy"]) ]

/-- The `ALIASES` side table of `src/app.py`. -/
def ALIASES : List (String × List String) :=
  [ ("postal_code", ["zip", "zipcode", "post_code"]),
    ("address_line1", ["address1", "street", "line1"]) ]

/-- The ordered regex-rule layer of `_guess_canonical_key`: the chain of
early returns, evaluated on the lowercased signature.  Returns `none`
when no rule fires (the fuzzy fallback then runs). -/
def regexKey (t : String) : Option String :=
  if substrB t "email" then some "email"
  else if wordAny t ["zip", "postal", "postcode"] then some "postal_code"
  else if wordAny t ["first", "given", "forename"] then some "first_name"
  else if wordAny t ["last", "surname", "family"] then some "last_name"
  else if wordAny t ["phone", "mobile", "cell", "tel"] then some "phone"
  else if wordAny t ["company", "organization", "organisation", "employer"] then some "company"
  else if wordAny t ["city", "town"] then some "city"
  else if wordAny t ["state", "region", "province", "county"] then some "state"
  else if wordAny t ["country", "nation"] then some "country"
  else if wordAny t ["date of birth", "birthday", "dob"] then some "dob"
  else if wordAny t ["address", "street"] then some "address_line1"
  else if wordAny t ["terms", "privacy", "agree", "accept"] then some "accept_tos"
  else none

/-- One row step of the longest-common-subsequence dynamic program:
`c` is the current character of the second string, the row holds the
values for the non-empty prefixes of `a`; `diag` and `left` are the
upper-left and left neighbours of the cell being produced. -/
def lcsRowAux (c : Char) : List Char → List Nat → Nat → Nat → List Nat
  | [], _, _, _ => []
  | a :: as, prev, diag, left =>
      let up := prev.headD 0
      let cur := if a = c then diag + 1 else max left up
      cur :: lcsRowAux c as prev.tail up cur

/-- Length of the longest common subsequence of two character lists. -/
def lcs (a b : List Char) : Nat :=
  (b.foldl (fun row c => lcsRowAux c a row 0 0) (List.replicate a.length 0)).getLastD 0

/-- Larger of two rational scores, mirroring the running-maximum updates
of the scoring loops. -/
def qmax (a b : ℚ) : ℚ := if a < b then b else a

/-- Normalized indel similarity of two character lists on a 0-100 scale
(the `fuzz.ratio` of two strings): `200 * lcs / (len1 + len2)`. -/
def simQ (a w : List Char) : ℚ :=
  if a.length + w.length = 0 then 100
  else mkRat (200 * (lcs a w : Int)) (a.length + w.length)

/-- Alignment windows of a needle of length `m` inside the haystack `b`
(`m ≤ b.length`, `1 ≤ m`): proper prefixes of length `1..m-1`, every
full window of length `m`, and proper suffixes of length `m-1..1`. -/
def windowsFor (m : Nat) (b : List Char) : List (List Char) :=
  ((List.range' 1 (m - 1)).map (fun i => b.take i))
    ++ ((List.range (b.length - m + 1)).map (fun i => (b.drop i).take m))
    ++ ((List.range' (b.length - m + 1) (m - 1)).map (fun i => b.drop i))

/-- Modelled from the spec: the repository calls `rapidfuzz.fuzz`'s
partial-similarity scorer, an external dependency whose code is not part
of this repository.  Per the spec it is "a string-similarity score
(0-100) tolerant of partial/substring overlap": the best normalized
indel similarity over the alignment windows of the shorter string inside
the longer one.  In particular it is 100 exactly when the shorter string
occurs contiguously inside the longer one, which is the only aspect the
claims' verdicts depend on. -/
def fuzzScore (s1 s2 : String) : ℚ :=
  let a := if s1.data.length ≤ s2.data.length then s1.data else s2.data
  let b := if s1.data.length ≤ s2.data.length then s2.data else s1.data
  if a.length = 0 then (if b.length = 0 then 100 else 0)
  else ((windowsFor a.length b).map (fun w => simQ a w)).foldl qmax 0

/-- The flattened comparand sequence of the fuzzy fallback loop:
`for canon, syns in CANONICAL_KEYS.items(): for s in [canon] + syns`. -/
def comparands : List (String × String) :=
  CANONICAL_KEYS.flatMap (fun p => (p.1 :: p.2).map (fun s => (p.1, s)))

/-- The fuzzy fallback loop of `_guess_canonical_key`: running best key
and best score, starting from `(None, -1)`, updated on strictly greater
scores. -/
def fuzzyBest (t : String) : Option String × ℚ :=
  comparands.foldl
    (fun acc p =>
      let score := fuzzScore t p.2
      if acc.2 < score then (some p.1, score) else acc)
    (none, -1)

/-- The key-inference function `_guess_canonical_key`: lowercase the
signature, run the ordered regex rules, otherwise take the fuzzy best
when its score reaches 65. -/
def guessCanonicalKey (text : String) : Option String :=
  let t := pyLower text
  match regexKey t with
  | some k => some k
  | none =>
      let bs := fuzzyBest t
      if 65 ≤ bs.2 then bs.1 else none

/-- Comparands of the fuzzy loop paired with their scores against `t`. -/
def scoredComparands (t : String) : List (String × ℚ) :=
  comparands.map (fun p => (p.1, fuzzScore t p.2))

/-- Fold computing the maximum of the scores of a scored-comparand list
over an initial value. -/
def maxScoreFold (l : List (String × ℚ)) (init : ℚ) : ℚ :=
  l.foldl (fun m p => qmax m p.2) init

/-- The maximum fuzzy score of `t` over all comparands, seeded with the
loop's initial best score `-1`. -/
def maxFuzzyScore (t : String) : ℚ := maxScoreFold (scoredComparands t) (-1)

/-- Generic form of the fuzzy loop on an already-scored list. -/
def bestFold (l : List (String × ℚ)) (acc : Option String × ℚ) : Option String × ℚ :=
  l.foldl (fun a p => if a.2 < p.2 then (some p.1, p.2) else a) acc

/-- The alias scan of `_best_data_value`:
`for a in ALIASES.get(canon_key, []): if a in data: return data[a]`. -/
def aliasScan (data : List (String × PyVal)) : List String → PyVal
  | [] => .vNone
  | a :: rest =>
      match data.lookup a with
      | some v => v
      | none => aliasScan data rest

/-- The value-resolution function `_best_data_value`: exact canonical-key
lookup first, then the alias spellings in list order, else `None`. -/
def bestDataValue (canonKey : String) (data : List (String × PyVal)) : PyVal :=
  match data.lookup canonKey with
  | some v => v
  | none => aliasScan data ((ALIASES.lookup canonKey).getD [])

/-- Characters kept by `PHONE_RE.sub("", value)`: the pattern `[^\d+]`
removes everything except digits and plus signs. -/
def keepPhoneChar (c : Char) : Bool := c.isDigit || c = '+'

/-- The key-specific normalization `_normalize_value`: for the key
`phone` on a string, drop every character that is neither a digit nor a
plus sign, then return the result as-is when it starts with a plus sign,
prepend a plus sign when it is non-empty, and keep it when it is empty;
every other key/value combination passes through unchanged. -/
def normalizeValue (key : String) (value : PyVal) : PyVal :=
  match value with
  | .vStr s =>
      if key = "phone" then
        let digits := s.data.filter keepPhoneChar
        if digits.head? = some '+' then .vStr ⟨digits⟩
        else if digits.isEmpty then .vStr ⟨digits⟩
        else .vStr ⟨'+' :: digits⟩
      else .vStr s
  | v => v

/-- One discovered control as consumed by `_fill_discovered`: the
metadata extracted by discovery (`frame`, `tag`, `type`, `text`,
`selector_preview`) together with flags describing whether each possible
Playwright action on the live element handle would raise. -/
structure Control where
  frame : String
  tag : String
  ctype : String
  text : String
  selector_preview : String
  selectLabelFails : Bool
  selectValueFails : Bool
  checkFails : Bool
  uncheckFails : Bool
  fillFails : Bool
deriving DecidableEq

/-- The `FieldMatch` output record of `src/app.py`. -/
structure FieldMatch where
  frame : String
  tag : String
  type : String
  label_text : String
  canonical_key : Option String
  value_used : Option String
  selector_preview : String
  filled : Bool
deriving DecidableEq

/-- The page action performed by one fill dispatch. -/
inductive FillAction where
  | selectLabel : String → FillAction
  | selectValue : String → FillAction
  | check : FillAction
  | uncheck : FillAction
  | fillText : String → FillAction
deriving DecidableEq

/-- The tag/type dispatch inside the `try` block of `_fill_discovered`:
`select` tries selection by label then by value; `checkbox`/`radio`
check or uncheck according to `bool(value) if isinstance(value, bool)
else True`; everything else fills the string form.  A raised Playwright
exception is modelled as an `error` result. -/
def dispatch (c : Control) (value : PyVal) : Except String FillAction :=
  if c.tag = "select" then
    if c.selectLabelFails = false then .ok (.selectLabel (pyStr value))
    else if c.selectValueFails = false then .ok (.selectValue (pyStr value))
    else .error "select_option failed"
  else if pyLower c.ctype = "checkbox" ∨ pyLower c.ctype = "radio" then
    let should := match value with | .vBool b => b | _ => true
    if should then
      if c.checkFails = false then .ok .check else .error "check failed"
    else
      if c.uncheckFails = false then .ok .uncheck else .error "uncheck failed"
  else if c.fillFails = false then .ok (.fillText (pyStr value))
  else .error "fill failed"

/-- Result of processing one control: the `FieldMatch` record appended
to `matched`, the page action that was actually performed (if any), and
the log entry appended on a caught exception (if any). -/
structure StepResult where
  fm : FieldMatch
  action : Option FillAction
  err : Option String
deriving DecidableEq

/-- The per-control body of `_fill_discovered`: infer the key, resolve a
value, and when both are usable normalize the value and dispatch the
fill, recording `filled`/`value_used` only when the action succeeded; a
failing action is caught and logged. -/
def fillOne (data : List (String × PyVal)) (c : Control) : StepResult :=
  let canon := guessCanonicalKey c.text
  match canon with
  | some k =>
      let value := bestDataValue k data
      if value ≠ PyVal.vNone ∧ value ≠ PyVal.vStr "" then
        let nvalue := normalizeValue k value
        match dispatch c nvalue with
        | .ok act =>
            { fm := { frame := c.frame, tag := c.tag, type := c.ctype,
                      label_text := c.text, canonical_key := some k,
                      value_used := some (pyStr nvalue),
                      selector_preview := c.selector_preview, filled := true },
              action := some act, err := none }
        | .error e =>
            { fm := { frame := c.frame, tag := c.tag, type := c.ctype,
                      label_text := c.text, canonical_key := some k,
                      value_used := none,
                      selector_preview := c.selector_preview, filled := false },
              action := none, err := some ("Fill error: " ++ e) }
      else
        { fm := { frame := c.frame, tag := c.tag, type := c.ctype,
                  label_text := c.text, canonical_key := some k,
                  value_used := none,
                  selector_preview := c.selector_preview, filled := false },
          action := none, err := none }
  | none =>
      { fm := { frame := c.frame, tag := c.tag, type := c.ctype,
                label_text := c.text, canonical_key := none,
                value_used := none,
                selector_preview := c.selector_preview, filled := false },
        action := none, err := none }

/-- The matching pass `_fill_discovered`: fold over the discovered
controls, appending one `FieldMatch` per control and one log entry per
caught fill error. -/
def fillDiscovered (controls : List Control) (data : List (String × PyVal)) :
    List FieldMatch × List String :=
  controls.foldl
    (fun acc c =>
      (acc.1 ++ [(fillOne data c).fm], acc.2 ++ ((fillOne data c).err).toList))
    ([], [])

/-- The metadata fields a `FieldMatch` copies verbatim from its control. -/
def matchMeta (fm : FieldMatch) : String × String × String × String × String :=
  (fm.frame, fm.tag, fm.type, fm.label_text, fm.selector_preview)

/-- The metadata fields of a discovered control. -/
def controlMeta (c : Control) : String × String × String × String × String :=
  (c.frame, c.tag, c.ctype, c.text, c.selector_preview)

/-! Helper lemmas about value resolution and normalization. -/

/-- The alias scan returns the value of the first alias present in the
data map, and `None` when no alias is present. -/
theorem aliasScan_eq_find (data : List (String × PyVal)) (l : List String) :
    aliasScan data l =
      match l.find? (fun a => (data.lookup a).isSome) with
      | some a => (data.lookup a).getD PyVal.vNone
      | none => PyVal.vNone := by
  induction l with
  | nil => rfl
  | cons a rest ih =>
      unfold aliasScan
      cases h : data.lookup a with
      | some v =>
          rw [List.find?_cons_of_pos]
          · simp [h]
          · simp [h]
      | none =>
          rw [List.find?_cons_of_neg]
          · exact ih
          · simp [h]

/-- Alias scanning over an empty data map yields `None`. -/
theorem aliasScan_nil (l : List String) : aliasScan [] l = PyVal.vNone := by
  induction l with
  | nil => rfl
  | cons a rest ih => unfold aliasScan; simpa [List.lookup] using ih

/-- Value resolution over an empty data map yields `None`. -/
theorem bestDataValue_nil (k : String) : bestDataValue k [] = PyVal.vNone := by
  unfold bestDataValue
  simp [List.lookup, aliasScan_nil]

/-- A list each of whose elements passes the filter is unchanged by it. -/
theorem filter_all_eq {p : Char → Bool} {l : List Char} (h : ∀ c ∈ l, p c = true) :
    l.filter p = l :=
  List.filter_eq_self.mpr h

/-- Characters surviving the phone filter are digits or plus signs. -/
theorem keepPhoneChar_mem {l : List Char} {c : Char} (h : c ∈ l.filter keepPhoneChar) :
    c.isDigit = true ∨ c = '+' := by
  have := (List.mem_filter.mp h).2
  unfold keepPhoneChar at this
  rcases Bool.or_eq_true_iff.mp this with h' | h'
  · exact Or.inl h'
  · exact Or.inr (by simpa using h')

/-! Helper lemmas about the per-control fill step and the fold over
discovered controls. -/

/-- Every branch of `fillOne` copies the control's metadata verbatim into
the produced `FieldMatch`. -/
theorem fillOne_meta (d : List (String × PyVal)) (c : Control) :
    matchMeta (fillOne d c).fm = controlMeta c := by
  unfold fillOne
  cases guessCanonicalKey c.text with
  | none => rfl
  | some k =>
      dsimp only
      split
      · split <;> rfl
      · rfl

/-- The two possible shapes of a per-control step: an unfilled record
with no used value, or a filled record with key and value present and no
logged error. -/
theorem fillOne_cases (d : List (String × PyVal)) (c : Control) :
    ((fillOne d c).fm.filled = false ∧ (fillOne d c).fm.value_used = none)
    ∨ ((fillOne d c).fm.filled = true
        ∧ (fillOne d c).fm.canonical_key.isSome = true
        ∧ (fillOne d c).fm.value_used.isSome = true
        ∧ (fillOne d c).err = none) := by
  unfold fillOne
  cases guessCanonicalKey c.text with
  | none => left; simp
  | some k =>
      dsimp only
      split
      · cases hd : dispatch c (normalizeValue k (bestDataValue k d)) with
        | ok act => right; simp
        | error e => left; simp
      · left; simp

/-- A `FieldMatch` marked `filled` carries a canonical key and a used
value. -/
theorem fillOne_filled_imp (d : List (String × PyVal)) (c : Control)
    (h : (fillOne d c).fm.filled = true) :
    (fillOne d c).fm.canonical_key.isSome = true
      ∧ (fillOne d c).fm.value_used.isSome = true := by
  rcases fillOne_cases d c with ⟨h1, _⟩ | ⟨_, h2, h3, _⟩
  · rw [h] at h1; exact absurd h1 (by simp)
  · exact ⟨h2, h3⟩

/-- A logged fill error leaves the control's `FieldMatch` unfilled. -/
theorem fillOne_err_filled (d : List (String × PyVal)) (c : Control)
    (h : ((fillOne d c).err).isSome = true) :
    (fillOne d c).fm.filled = false := by
  rcases fillOne_cases d c with ⟨h1, _⟩ | ⟨_, _, _, h4⟩
  · exact h1
  · rw [h4] at h; exact absurd h (by simp)

/-- Against an empty data map the per-control step never fills and never
uses a value. -/
theorem fillOne_empty_data (c : Control) :
    (fillOne [] c).fm.filled = false ∧ (fillOne [] c).fm.value_used = none := by
  unfold fillOne
  cases guessCanonicalKey c.text with
  | none => simp
  | some k => simp [bestDataValue_nil]

/-- Unrolling of the `_fill_discovered` fold from an arbitrary
accumulator. -/
theorem fillDiscovered_go (d : List (String × PyVal)) (cs : List Control)
    (m : List FieldMatch) (l : List String) :
    cs.foldl
        (fun acc c =>
          (acc.1 ++ [(fillOne d c).fm], acc.2 ++ ((fillOne d c).err).toList))
        (m, l)
      = (m ++ cs.map (fun c => (fillOne d c).fm),
         l ++ cs.filterMap (fun c => (fillOne d c).err)) := by
  induction cs generalizing m l with
  | nil => simp
  | cons c cs ih =>
      rw [List.foldl_cons, ih]
      cases h : (fillOne d c).err <;> simp [h, List.filterMap_cons]

/-- The matched list produced by `_fill_discovered` is the map of the
per-control step over the discovered controls. -/
theorem fillDiscovered_fst (cs : List Control) (d : List (String × PyVal)) :
    (fillDiscovered cs d).1 = cs.map (fun c => (fillOne d c).fm) := by
  unfold fillDiscovered
  rw [fillDiscovered_go]
  simp

/-- The log list produced by `_fill_discovered` collects exactly the
per-control error entries. -/
theorem fillDiscovered_snd (cs : List Control) (d : List (String × PyVal)) :
    (fillDiscovered cs d).2 = cs.filterMap (fun c => (fillOne d c).err) := by
  unfold fillDiscovered
  rw [fillDiscovered_go]
  simp

/-- Counting lemma: a `filterMap` has as many elements as there are
inputs on which the function succeeds. -/
theorem length_filterMap_eq_length_filter {α β : Type} (f : α → Option β)
    (l : List α) :
    (l.filterMap f).length = (l.filter (fun a => (f a).isSome)).length := by
  induction l with
  | nil => rfl
  | cons a l ih =>
      cases h : f a <;> simp [List.filterMap_cons, List.filter_cons, h, ih]

/-! Helper lemmas about the fuzzy fallback loop. -/

/-- The left argument never exceeds the running maximum. -/
theorem le_qmax_left (a b : ℚ) : a ≤ qmax a b := by
  unfold qmax
  split
  · exact le_of_lt (by assumption)
  · exact le_refl a

/-- The right argument never exceeds the running maximum. -/
theorem le_qmax_right (a b : ℚ) : b ≤ qmax a b := by
  unfold qmax
  split
  · exact le_refl b
  · exact le_of_not_lt (by assumption)

/-- The score maximum dominates its initial value. -/
theorem maxScoreFold_init_le (l : List (String × ℚ)) (s0 : ℚ) :
    s0 ≤ maxScoreFold l s0 := by
  induction l generalizing s0 with
  | nil => exact le_refl s0
  | cons p l ih =>
      calc s0 ≤ qmax s0 p.2 := le_qmax_left s0 p.2
        _ ≤ maxScoreFold l (qmax s0 p.2) := ih (qmax s0 p.2)
        _ = maxScoreFold (p :: l) s0 := rfl

/-- The score maximum dominates every listed score. -/
theorem maxScoreFold_mem_le (l : List (String × ℚ)) (s0 : ℚ)
    (p : String × ℚ) (hp : p ∈ l) : p.2 ≤ maxScoreFold l s0 := by
  induction l generalizing s0 with
  | nil => cases hp
  | cons q l ih =>
      rcases List.mem_cons.mp hp with rfl | hp'
      · calc p.2 ≤ qmax s0 p.2 := le_qmax_right s0 p.2
          _ ≤ maxScoreFold l (qmax s0 p.2) := maxScoreFold_init_le l (qmax s0 p.2)
          _ = maxScoreFold (p :: l) s0 := rfl
      · exact ih (qmax s0 q.2) hp'

/-- The running best score of the loop equals the score maximum. -/
theorem bestFold_snd (l : List (String × ℚ)) (b0 : Option String) (s0 : ℚ) :
    (bestFold l (b0, s0)).2 = maxScoreFold l s0 := by
  induction l generalizing b0 s0 with
  | nil => rfl
  | cons p l ih =>
      show (bestFold l (if s0 < p.2 then (some p.1, p.2) else (b0, s0))).2
        = maxScoreFold l (qmax s0 p.2)
      unfold qmax
      by_cases h : s0 < p.2
      · rw [if_pos h, if_pos h, ih]
      · rw [if_neg h, if_neg h, ih]

/-- When no listed score beats the accumulator, the loop keeps it. -/
theorem bestFold_stay (l : List (String × ℚ)) (b0 : Option String) (s0 : ℚ)
    (h : ∀ p ∈ l, p.2 ≤ s0) : bestFold l (b0, s0) = (b0, s0) := by
  induction l with
  | nil => rfl
  | cons p l ih =>
      show bestFold l (if s0 < p.2 then (some p.1, p.2) else (b0, s0)) = (b0, s0)
      rw [if_neg (not_lt.mpr (h p (List.mem_cons_self p l)))]
      exact ih (fun q hq => h q (List.mem_cons_of_mem p hq))

/-- When some listed score beats the accumulator, the loop returns the
key of the first comparand attaining the score maximum. -/
theorem bestFold_fst (l : List (String × ℚ)) (b0 : Option String) (s0 M : ℚ)
    (hM : M = maxScoreFold l s0) (h : s0 < M) :
    (bestFold l (b0, s0)).1
      = (l.find? (fun p => M ≤ p.2)).map Prod.fst := by
  induction l generalizing b0 s0 with
  | nil =>
      rw [show maxScoreFold [] s0 = s0 from rfl] at hM
      exact absurd h (hM ▸ lt_irrefl s0)
  | cons p l ih =>
      have hM' : M = maxScoreFold l (qmax s0 p.2) := hM
      by_cases h1 : s0 < p.2
      · have hq : qmax s0 p.2 = p.2 := if_pos h1
        rw [hq] at hM'
        by_cases h2 : M ≤ p.2
        · have hple : p.2 ≤ M := hM' ▸ maxScoreFold_init_le l p.2
          have hMp : M = p.2 := le_antisymm h2 hple
          have hstep : bestFold (p :: l) (b0, s0) = bestFold l (some p.1, p.2) := by
            show bestFold l (if s0 < p.2 then (some p.1, p.2) else (b0, s0))
              = bestFold l (some p.1, p.2)
            rw [if_pos h1]
          rw [hstep,
            bestFold_stay l (some p.1) p.2
              (fun q hq' => hMp ▸ (hM' ▸ maxScoreFold_mem_le l p.2 q hq')),
            List.find?_cons_of_pos _ (by simpa using h2)]
          rfl
        · have h2' : p.2 < M := lt_of_not_le h2
          have hstep : bestFold (p :: l) (b0, s0) = bestFold l (some p.1, p.2) := by
            show bestFold l (if s0 < p.2 then (some p.1, p.2) else (b0, s0))
              = bestFold l (some p.1, p.2)
            rw [if_pos h1]
          rw [hstep, ih (some p.1) p.2 hM' h2',
            List.find?_cons_of_neg _ (by simpa using h2)]
      · have hq : qmax s0 p.2 = s0 := if_neg h1
        rw [hq] at hM'
        have h2 : ¬ M ≤ p.2 := not_le.mpr (lt_of_le_of_lt (not_lt.mp h1) h)
        have hstep : bestFold (p :: l) (b0, s0) = bestFold l (b0, s0) := by
          show bestFold l (if s0 < p.2 then (some p.1, p.2) else (b0, s0))
            = bestFold l (b0, s0)
          rw [if_neg h1]
        rw [hstep, ih b0 s0 hM' h,
          List.find?_cons_of_neg _ (by simpa using h2)]

/-- The source's fuzzy loop is the generic loop over the scored
comparand list. -/
theorem fuzzyBest_eq (t : String) :
    fuzzyBest t = bestFold (scoredComparands t) (none, -1) := by
  unfold fuzzyBest bestFold scoredComparands
  rw [List.foldl_map]

/-- Claim C2: on a signature where no ordered regex rule fires,
`_guess_canonical_key` returns a key exactly when the maximum fuzzy
score over all (canonical key, synonym) comparands is at least 65, in
which case it returns the key of the first comparand (in the fixed
vocabulary iteration order) attaining that maximum; below 65 it returns
null. -/
theorem guess_fuzzy_fallback_characterization (t : String)
    (h : regexKey (pyLower t) = none) :
    guessCanonicalKey t =
      if 65 ≤ maxFuzzyScore (pyLower t) then
        ((scoredComparands (pyLower t)).find?
            (fun p => maxFuzzyScore (pyLower t) ≤ p.2)).map Prod.fst
      else none := by
  have hbs : (fuzzyBest (pyLower t)).2 = maxFuzzyScore (pyLower t) := by
    rw [fuzzyBest_eq]; exact bestFold_snd _ _ _
  simp only [guessCanonicalKey, h]
  by_cases h65 : 65 ≤ maxFuzzyScore (pyLower t)
  · rw [if_pos (by rw [hbs]; exact h65), if_pos h65, fuzzyBest_eq]
    exact bestFold_fst _ none (-1) _ rfl (lt_of_lt_of_le (by norm_num) h65)
  · rw [if_neg (by rw [hbs]; exact h65), if_neg h65]

/-- Witness for C2 at the concrete regex-free signature "tos". -/
theorem guess_fuzzy_fallback_characterization_witness :
    guessCanonicalKey "tos" =
      if 65 ≤ maxFuzzyScore (pyLower "tos") then
        ((scoredComparands (pyLower "tos")).find?
            (fun p => maxFuzzyScore (pyLower "tos") ≤ p.2)).map Prod.fst
      else none :=
  guess_fuzzy_fallback_characterization "tos" (by decide)

/-- Claim C4: value resolution returns the canonical key's own entry
when present, otherwise the entry of the first listed alias present,
otherwise null; in particular the canonical key wins over an alias. -/
theorem best_data_value_resolution (k : String) (d : List (String × PyVal)) :
    (∀ v, d.lookup k = some v → bestDataValue k d = v)
  ∧ (d.lookup k = none →
      bestDataValue k d =
        match ((ALIASES.lookup k).getD []).find? (fun a => (d.lookup a).isSome) with
        | some a => (d.lookup a).getD PyVal.vNone
        | none => PyVal.vNone)
  ∧ bestDataValue "postal_code"
      [("postal_code", PyVal.vStr "94103"), ("zip", PyVal.vStr "00000")]
      = PyVal.vStr "94103" := by
  refine ⟨?_, ?_, by decide⟩
  · intro v hv
    unfold bestDataValue
    rw [hv]
  · intro h0
    unfold bestDataValue
    rw [h0]
    exact aliasScan_eq_find d _

/-- Witness for C4 at a concrete data map containing the canonical key. -/
theorem best_data_value_resolution_witness :
    bestDataValue "email" [("email", PyVal.vStr "a@b.com")]
      = PyVal.vStr "a@b.com" :=
  (best_data_value_resolution "email" [("email", PyVal.vStr "a@b.com")]).1
    (PyVal.vStr "a@b.com") (by decide)

/-- Counterexample to claim C3 as stated: the value "+" contains no
digit characters, yet normalizing it under the key `phone` yields "+",
not the empty string (the code keeps every '+', not only a leading
one). -/
theorem phone_normalization_counterexample :
    ("+".data.all (fun c => !c.isDigit)) = true
  ∧ normalizeValue "phone" (PyVal.vStr "+") ≠ PyVal.vStr "" := by
  decide

/-- Claim C3 as amended: phone normalization keeps exactly the digits
and '+' signs of the input, in order — the result is the filtered input
itself or the filtered input with a single '+' prepended; consequently
the result contains only digits and '+' characters; whenever the result
is non-empty it begins with '+', and the '+' is prepended precisely when
the filtered text is non-empty and does not already start with '+'; and
a string value containing neither digits nor '+' normalizes to the
empty string. -/
theorem phone_normalization_amended (s w : String)
    (hw : normalizeValue "phone" (PyVal.vStr s) = PyVal.vStr w) :
    (w.data = s.data.filter keepPhoneChar
      ∨ w.data = '+' :: s.data.filter keepPhoneChar)
  ∧ (∀ c ∈ w.data, c.isDigit = true ∨ c = '+')
  ∧ (w ≠ "" → w.data.head? = some '+')
  ∧ (s.data.filter keepPhoneChar ≠ [] →
      (s.data.filter keepPhoneChar).head? ≠ some '+' →
      w.data = '+' :: s.data.filter keepPhoneChar)
  ∧ ((s.data.filter keepPhoneChar).head? = some '+' →
      w.data = s.data.filter keepPhoneChar)
  ∧ ((∀ c ∈ s.data, c.isDigit = false ∧ c ≠ '+') → w = "") := by
  have hnil : (∀ c ∈ s.data, c.isDigit = false ∧ c ≠ '+') →
      s.data.filter keepPhoneChar = [] := fun hall =>
    List.filter_eq_nil_iff.mpr
      (fun c hc => by simp [keepPhoneChar, (hall c hc).1, (hall c hc).2])
  simp only [normalizeValue, if_pos rfl] at hw
  by_cases h1 : (s.data.filter keepPhoneChar).head? = some '+'
  · rw [if_pos h1] at hw
    injection hw with hw'
    subst hw'
    refine ⟨Or.inl rfl, fun c hc => keepPhoneChar_mem hc, fun _ => h1,
      fun _ hh => absurd h1 hh, fun _ => rfl, fun hall => ?_⟩
    rw [hnil hall] at h1
    exact absurd h1 (by simp)
  · rw [if_neg h1] at hw
    by_cases h2 : (s.data.filter keepPhoneChar).isEmpty
    · rw [if_pos h2] at hw
      injection hw with hw'
      subst hw'
      have h2' : s.data.filter keepPhoneChar = [] := by
        cases h : s.data.filter keepPhoneChar
        · rfl
        · rw [h] at h2; exact absurd h2 (by simp)
      rw [h2']
      exact ⟨Or.inl rfl, fun c hc => absurd hc (by simp),
        fun hne => absurd rfl hne, fun hne _ => absurd rfl hne,
        fun _ => rfl, fun _ => rfl⟩
    · rw [if_neg h2] at hw
      injection hw with hw'
      subst hw'
      refine ⟨Or.inr rfl, ?_, fun _ => rfl, fun _ _ => rfl,
        fun hh => absurd hh h1, fun hall => ?_⟩
      · intro c hc
        rcases List.mem_cons.mp hc with rfl | hc'
        · exact Or.inr rfl
        · exact keepPhoneChar_mem hc'
      · rw [hnil hall] at h2
        exact absurd h2 (by simp)

/-- Witness for the amended C3 at the input "1+2", whose interior '+'
is kept and which receives a prepended '+'. -/
theorem phone_normalization_amended_witness :
    ("+1+2".data = "1+2".data.filter keepPhoneChar
      ∨ "+1+2".data = '+' :: "1+2".data.filter keepPhoneChar)
  ∧ (∀ c ∈ "+1+2".data, c.isDigit = true ∨ c = '+')
  ∧ ("+1+2" ≠ "" → "+1+2".data.head? = some '+')
  ∧ ("1+2".data.filter keepPhoneChar ≠ [] →
      ("1+2".data.filter keepPhoneChar).head? ≠ some '+' →
      "+1+2".data = '+' :: "1+2".data.filter keepPhoneChar)
  ∧ (("1+2".data.filter keepPhoneChar).head? = some '+' →
      "+1+2".data = "1+2".data.filter keepPhoneChar)
  ∧ ((∀ c ∈ "1+2".data, c.isDigit = false ∧ c ≠ '+') → "+1+2" = "") :=
  phone_normalization_amended "1+2" "+1+2" (by decide)

/-- Unfolded form of phone normalization on a string value. -/
theorem normalizeValue_phone_eq (s : String) :
    normalizeValue "phone" (PyVal.vStr s)
      = (if (s.data.filter keepPhoneChar).head? = some '+'
          then PyVal.vStr ⟨s.data.filter keepPhoneChar⟩
          else if (s.data.filter keepPhoneChar).isEmpty
            then PyVal.vStr ⟨s.data.filter keepPhoneChar⟩
            else PyVal.vStr ⟨'+' :: s.data.filter keepPhoneChar⟩) := by
  simp only [normalizeValue]
  exact if_pos trivial

/-- Projection of the string constructor. -/
theorem mk_data (l : List Char) : (⟨l⟩ : String).data = l := rfl

/-- Claim C8: phone normalization is idempotent; an already-normalized
'+'-prefixed digit string is returned unchanged; and the spec's example
"+1 415 555 0117" normalizes to "+14155550117". -/
theorem phone_normalization_idempotent (v : String) :
    normalizeValue "phone" (normalizeValue "phone" (PyVal.vStr v))
      = normalizeValue "phone" (PyVal.vStr v)
  ∧ (v.data.head? = some '+' → (∀ c ∈ v.data.tail, c.isDigit = true) →
      normalizeValue "phone" (PyVal.vStr v) = PyVal.vStr v)
  ∧ normalizeValue "phone" (PyVal.vStr "+1 415 555 0117")
      = PyVal.vStr "+14155550117" := by
  refine ⟨?_, ?_, by decide⟩
  · have hdd : (v.data.filter keepPhoneChar).filter keepPhoneChar
        = v.data.filter keepPhoneChar :=
      filter_all_eq (fun c hc => (List.mem_filter.mp hc).2)
    rw [normalizeValue_phone_eq v]
    by_cases h1 : (v.data.filter keepPhoneChar).head? = some '+'
    · rw [if_pos h1, normalizeValue_phone_eq]
      simp only [mk_data, hdd]
      rw [if_pos h1]
    · by_cases h2 : (v.data.filter keepPhoneChar).isEmpty
      · rw [if_neg h1, if_pos h2, normalizeValue_phone_eq]
        simp only [mk_data, hdd]
        rw [if_neg h1, if_pos h2]
      · rw [if_neg h1, if_neg h2, normalizeValue_phone_eq]
        simp only [mk_data]
        have hplus : ('+' :: v.data.filter keepPhoneChar).filter keepPhoneChar
            = '+' :: v.data.filter keepPhoneChar := by
          rw [List.filter_cons_of_pos (by decide), hdd]
        rw [hplus]
        rw [if_pos (by simp)]
  · intro hhead htail
    have hall : v.data.filter keepPhoneChar = v.data := by
      refine filter_all_eq (fun c hc => ?_)
      cases hv : v.data with
      | nil => rw [hv] at hc; exact absurd hc (by simp)
      | cons c0 rest =>
          rw [hv] at hc hhead
          rcases List.mem_cons.mp hc with rfl | hc'
          · have : c = '+' := by simpa using hhead
            simp [keepPhoneChar, this]
          · have : c.isDigit = true := htail c (by rw [hv]; exact hc')
            simp [keepPhoneChar, this]
    rw [normalizeValue_phone_eq, hall, if_pos hhead]

/-- Witness for C8 at the spec's example value. -/
theorem phone_normalization_idempotent_witness :
    normalizeValue "phone" (normalizeValue "phone" (PyVal.vStr "+1 415 555 0117"))
      = normalizeValue "phone" (PyVal.vStr "+1 415 555 0117") :=
  (phone_normalization_idempotent "+1 415 555 0117").1

/-- Claim C5: the matching pass returns one `FieldMatch` per discovered
control, in discovery order with the control's metadata copied verbatim;
it records one log entry per failing fill action; and a control whose
fill action fails is reported `filled=false` rather than raising. -/
theorem fill_discovered_order_and_totality (controls : List Control)
    (data : List (String × PyVal)) :
    ((fillDiscovered controls data).1).map matchMeta = controls.map controlMeta
  ∧ ((fillDiscovered controls data).2).length
      = (controls.filter (fun c => ((fillOne data c).err).isSome)).length
  ∧ ∀ c ∈ controls, ((fillOne data c).err).isSome = true →
      ((fillOne data c).fm).filled = false := by
  refine ⟨?_, ?_, fun c _ h => fillOne_err_filled data c h⟩
  · rw [fillDiscovered_fst, List.map_map]
    have : (matchMeta ∘ fun c => (fillOne data c).fm) = controlMeta :=
      funext (fun c => fillOne_meta data c)
    rw [this]
  · rw [fillDiscovered_snd]
    exact length_filterMap_eq_length_filter _ _

/-- Witness for C5: a control whose fill action raises is reported
unfilled. -/
theorem fill_discovered_order_and_totality_witness :
    ((fillOne [("email", PyVal.vStr "a@b.com")]
        (⟨"main", "input", "text", "Email", "",
          false, false, false, false, true⟩ : Control)).fm).filled = false :=
  (fill_discovered_order_and_totality
      [(⟨"main", "input", "text", "Email", "",
          false, false, false, false, true⟩ : Control)]
      [("email", PyVal.vStr "a@b.com")]).2.2
    (⟨"main", "input", "text", "Email", "",
        false, false, false, false, true⟩ : Control)
    (by decide) (by decide)

/-- Claim C6: every produced `FieldMatch` satisfies that `filled` implies
both a canonical key and a used value are present; and the converse
fails as stated: a control inferred as `email` against data lacking any
email entry stays unfilled with no value while the key is populated. -/
theorem field_match_filled_invariant (controls : List Control)
    (data : List (String × PyVal)) (fm : FieldMatch)
    (hm : fm ∈ (fillDiscovered controls data).1) :
    (fm.filled = true → fm.canonical_key.isSome = true ∧ fm.value_used.isSome = true)
  ∧ ((fillOne [("phone", PyVal.vStr "123")]
        (⟨"main", "input", "text", "Email", "",
          false, false, false, false, false⟩ : Control)).fm.filled = false
      ∧ (fillOne [("phone", PyVal.vStr "123")]
          (⟨"main", "input", "text", "Email", "",
            false, false, false, false, false⟩ : Control)).fm.value_used = none
      ∧ (fillOne [("phone", PyVal.vStr "123")]
          (⟨"main", "input", "text", "Email", "",
            false, false, false, false, false⟩ : Control)).fm.canonical_key
          = some "email") := by
  refine ⟨?_, by decide⟩
  rw [fillDiscovered_fst] at hm
  obtain ⟨c, -, rfl⟩ := List.mem_map.mp hm
  exact fun h => fillOne_filled_imp data c h

/-- Witness for C6 at a control that does get filled. -/
theorem field_match_filled_invariant_witness :
    ((fillOne [("email", PyVal.vStr "x")]
        (⟨"main", "input", "text", "Email", "",
          false, false, false, false, false⟩ : Control)).fm.canonical_key.isSome = true)
  ∧ ((fillOne [("email", PyVal.vStr "x")]
        (⟨"main", "input", "text", "Email", "",
          false, false, false, false, false⟩ : Control)).fm.value_used.isSome = true) :=
  (field_match_filled_invariant
      [(⟨"main", "input", "text", "Email", "",
          false, false, false, false, false⟩ : Control)]
      [("email", PyVal.vStr "x")]
      ((fillOne [("email", PyVal.vStr "x")]
        (⟨"main", "input", "text", "Email", "",
          false, false, false, false, false⟩ : Control)).fm)
      (by decide)).1 (by decide)

/-- Claim C9: matching against an empty caller-data map (as the
discover endpoint does) leaves every `FieldMatch` unfilled with no used
value. -/
theorem discover_empty_data_unfilled (controls : List Control)
    (fm : FieldMatch) (hm : fm ∈ (fillDiscovered controls []).1) :
    fm.filled = false ∧ fm.value_used = none := by
  rw [fillDiscovered_fst] at hm
  obtain ⟨c, -, rfl⟩ := List.mem_map.mp hm
  exact fillOne_empty_data c

/-- Witness for C9 at a one-control page. -/
theorem discover_empty_data_unfilled_witness :
    ((fillOne []
        (⟨"main", "input", "text", "Email", "",
          false, false, false, false, false⟩ : Control)).fm.filled = false)
  ∧ ((fillOne []
        (⟨"main", "input", "text", "Email", "",
          false, false, false, false, false⟩ : Control)).fm.value_used = none) :=
  discover_empty_data_unfilled
    [(⟨"main", "input", "text", "Email", "",
        false, false, false, false, false⟩ : Control)]
    ((fillOne []
        (⟨"main", "input", "text", "Email", "",
          false, false, false, false, false⟩ : Control)).fm)
    (by decide)

/-- Normalization of a string value yields a string value under any
key. -/
theorem normalizeValue_vStr (k : String) (s : String) :
    ∃ u, normalizeValue k (PyVal.vStr s) = PyVal.vStr u := by
  by_cases hk : k = "phone"
  · subst hk
    by_cases h1 : (s.data.filter keepPhoneChar).head? = some '+'
    · exact ⟨_, by rw [normalizeValue_phone_eq, if_pos h1]⟩
    · by_cases h2 : (s.data.filter keepPhoneChar).isEmpty
      · exact ⟨_, by rw [normalizeValue_phone_eq, if_neg h1, if_pos h2]⟩
      · exact ⟨_, by rw [normalizeValue_phone_eq, if_neg h1, if_neg h2]⟩
  · exact ⟨s, by simp only [normalizeValue]; rw [if_neg hk]⟩

/-- When the guard passes and the dispatched action succeeds, the
per-control step reports the action, marks the control filled, and
records the string form of the normalized value. -/
theorem fillOne_dispatch_ok (data : List (String × PyVal)) (c : Control)
    (k : String) (act : FillAction)
    (hk : guessCanonicalKey c.text = some k)
    (hvn : bestDataValue k data ≠ PyVal.vNone)
    (hve : bestDataValue k data ≠ PyVal.vStr "")
    (hd : dispatch c (normalizeValue k (bestDataValue k data)) = Except.ok act) :
    (fillOne data c).action = some act
  ∧ (fillOne data c).fm.filled = true
  ∧ (fillOne data c).fm.value_used
      = some (pyStr (normalizeValue k (bestDataValue k data))) := by
  unfold fillOne
  rw [hk]
  dsimp only
  rw [if_pos ⟨hvn, hve⟩, hd]
  exact ⟨rfl, rfl, rfl⟩

/-- Claim C7: for a checkbox/radio control with an inferred key and a
resolved value that is neither null nor the empty string, fill dispatch
is boolean-ish: the literal boolean false unchecks, everything else
checks, in both cases reporting `filled=true`; the "I agree to the
Terms" scenario behaves accordingly. -/
theorem checkbox_boolean_dispatch (c : Control) (data : List (String × PyVal))
    (k : String) (v : PyVal)
    (htag : c.tag ≠ "select")
    (htype : pyLower c.ctype = "checkbox" ∨ pyLower c.ctype = "radio")
    (hk : guessCanonicalKey c.text = some k)
    (hv : bestDataValue k data = v)
    (hvn : v ≠ PyVal.vNone) (hve : v ≠ PyVal.vStr "")
    (hc : c.checkFails = false) (hu : c.uncheckFails = false) :
    ((v = PyVal.vBool false →
        (fillOne data c).action = some FillAction.uncheck
        ∧ (fillOne data c).fm.filled = true)
      ∧ (v ≠ PyVal.vBool false →
        (fillOne data c).action = some FillAction.check
        ∧ (fillOne data c).fm.filled = true))
  ∧ ((fillOne [("accept_tos", PyVal.vBool true)]
        (⟨"main", "input", "checkbox", "I agree to the Terms", "",
          false, false, false, false, false⟩ : Control)).action
        = some FillAction.check
      ∧ (fillOne [("accept_tos", PyVal.vBool true)]
          (⟨"main", "input", "checkbox", "I agree to the Terms", "",
            false, false, false, false, false⟩ : Control)).fm.filled = true
      ∧ (fillOne [("accept_tos", PyVal.vBool false)]
          (⟨"main", "input", "checkbox", "I agree to the Terms", "",
            false, false, false, false, false⟩ : Control)).action
          = some FillAction.uncheck
      ∧ (fillOne [("accept_tos", PyVal.vBool false)]
          (⟨"main", "input", "checkbox", "I agree to the Terms", "",
            false, false, false, false, false⟩ : Control)).fm.filled = true) := by
  subst hv
  refine ⟨⟨fun hvf => ?_, fun hvf => ?_⟩, by decide⟩
  · have hd : dispatch c (normalizeValue k (bestDataValue k data))
        = Except.ok FillAction.uncheck := by
      rw [hvf]
      show dispatch c (PyVal.vBool false) = Except.ok FillAction.uncheck
      unfold dispatch
      rw [if_neg htag, if_pos htype]
      simp [hu]
    obtain ⟨ha, hf, -⟩ :=
      fillOne_dispatch_ok data c k FillAction.uncheck hk hvn hve hd
    exact ⟨ha, hf⟩
  · have hshould : (match normalizeValue k (bestDataValue k data) with
        | PyVal.vBool b => b
        | _ => true) = true := by
      cases hveq : bestDataValue k data with
      | vStr s =>
          obtain ⟨u, hu'⟩ := normalizeValue_vStr k s
          rw [hu']
      | vBool b =>
          cases b with
          | false => exact absurd hveq hvf
          | true => rfl
      | vInt n => rfl
      | vNone => exact absurd hveq hvn
    have hd : dispatch c (normalizeValue k (bestDataValue k data))
        = Except.ok FillAction.check := by
      unfold dispatch
      rw [if_neg htag, if_pos htype]
      dsimp only
      rw [hshould]
      simp [hc]
    obtain ⟨ha, hf, -⟩ :=
      fillOne_dispatch_ok data c k FillAction.check hk hvn hve hd
    exact ⟨ha, hf⟩

/-- Witness for C7 at the "I agree to the Terms" checkbox with a
boolean true value. -/
theorem checkbox_boolean_dispatch_witness :
    (fillOne [("accept_tos", PyVal.vBool true)]
        (⟨"main", "input", "checkbox", "I agree to the Terms", "",
          false, false, false, false, false⟩ : Control)).action
        = some FillAction.check
  ∧ (fillOne [("accept_tos", PyVal.vBool true)]
      (⟨"main", "input", "checkbox", "I agree to the Terms", "",
        false, false, false, false, false⟩ : Control)).fm.filled = true :=
  (checkbox_boolean_dispatch
      (⟨"main", "input", "checkbox", "I agree to the Terms", "",
        false, false, false, false, false⟩ : Control)
      [("accept_tos", PyVal.vBool true)]
      "accept_tos" (PyVal.vBool true)
      (by decide) (by decide) (by decide) (by decide)
      (by decide) (by decide) (by decide) (by decide)).1.2 (by decide)

/-- Claim C10: the empty-value guard is evaluated on the resolved value
before normalization, so a text control inferred as `phone` whose caller
value is a non-empty string with no digits and no '+' is filled with the
empty string, reporting `filled=true` and `value_used=""`. -/
theorem empty_value_guard_prenormalization (c : Control) (s : String)
    (data : List (String × PyVal))
    (htag : c.tag ≠ "select")
    (htype : ¬(pyLower c.ctype = "checkbox" ∨ pyLower c.ctype = "radio"))
    (hk : guessCanonicalKey c.text = some "phone")
    (hv : bestDataValue "phone" data = PyVal.vStr s)
    (hne : s ≠ "")
    (hchars : ∀ ch ∈ s.data, ch.isDigit = false ∧ ch ≠ '+')
    (hf : c.fillFails = false) :
    (fillOne data c).fm.filled = true
  ∧ (fillOne data c).fm.value_used = some ""
  ∧ (fillOne data c).action = some (FillAction.fillText "") := by
  have hfilter : s.data.filter keepPhoneChar = [] :=
    List.filter_eq_nil_iff.mpr
      (fun ch hch => by simp [keepPhoneChar, (hchars ch hch).1, (hchars ch hch).2])
  have hnorm : normalizeValue "phone" (PyVal.vStr s) = PyVal.vStr "" := by
    rw [normalizeValue_phone_eq, hfilter, if_neg (by simp), if_pos (by simp)]
  have hd : dispatch c (normalizeValue "phone" (bestDataValue "phone" data))
      = Except.ok (FillAction.fillText "") := by
    rw [hv, hnorm]
    unfold dispatch
    rw [if_neg htag, if_neg htype, if_pos hf]
    rfl
  have hvn : bestDataValue "phone" data ≠ PyVal.vNone := by
    rw [hv]; intro hcon; cases hcon
  have hve : bestDataValue "phone" data ≠ PyVal.vStr "" := by
    rw [hv]; intro hcon; injection hcon with hcon'; exact hne hcon'
  obtain ⟨ha, hfl, hvu⟩ :=
    fillOne_dispatch_ok data c "phone" (FillAction.fillText "") hk hvn hve hd
  refine ⟨hfl, ?_, ha⟩
  rw [hvu, hv, hnorm]
  rfl

/-- Witness for C10 at a concrete "Phone" text control with caller
value "abc". -/
theorem empty_value_guard_prenormalization_witness :
    ((fillOne [("phone", PyVal.vStr "abc")]
        (⟨"main", "input", "text", "Phone", "",
          false, false, false, false, false⟩ : Control)).fm.filled = true)
  ∧ ((fillOne [("phone", PyVal.vStr "abc")]
        (⟨"main", "input", "text", "Phone", "",
          false, false, false, false, false⟩ : Control)).fm.value_used = some "")
  ∧ ((fillOne [("phone", PyVal.vStr "abc")]
        (⟨"main", "input", "text", "Phone", "",
          false, false, false, false, false⟩ : Control)).action
      = some (FillAction.fillText "")) :=
  empty_value_guard_prenormalization
    (⟨"main", "input", "text", "Phone", "",
        false, false, false, false, false⟩ : Control)
    "abc" [("phone", PyVal.vStr "abc")]
    (by decide) (by decide) (by decide) (by decide)
    (by decide) (by decide) (by decide)

set_option maxRecDepth 1000000

set_option maxHeartbeats 8000000

/-- Inference on the synonym "first name" returns the key first_name. -/
theorem guess_syn_01 : guessCanonicalKey "first name" = some "first_name" := by
  decide

/-- Inference on the synonym "given name" returns the key first_name. -/
theorem guess_syn_02 : guessCanonicalKey "given name" = some "first_name" := by
  decide

/-- Inference on the synonym "forename" returns the key first_name. -/
theorem guess_syn_03 : guessCanonicalKey "forename" = some "first_name" := by
  decide

/-- Inference on the synonym "fname" returns the key first_name. -/
theorem guess_syn_04 : guessCanonicalKey "fname" = some "first_name" := by
  decide

/-- Inference on the synonym "last name" returns the key last_name. -/
theorem guess_syn_05 : guessCanonicalKey "last name" = some "last_name" := by
  decide

/-- Inference on the synonym "surname" returns the key last_name. -/
theorem guess_syn_06 : guessCanonicalKey "surname" = some "last_name" := by
  decide

/-- Inference on the synonym "family name" returns the key last_name. -/
theorem guess_syn_07 : guessCanonicalKey "family name" = some "last_name" := by
  decide

/-- Inference on the synonym "lname" returns the key last_name. -/
theorem guess_syn_08 : guessCanonicalKey "lname" = some "last_name" := by
  decide

/-- Inference on the synonym "email" returns the key email. -/
theorem guess_syn_09 : guessCanonicalKey "email" = some "email" := by
  decide

/-- Inference on the synonym "e-mail" returns the key email. -/
theorem guess_syn_10 : guessCanonicalKey "e-mail" = some "email" := by
  decide

/-- Inference on the synonym "mail" returns the key email. -/
theorem guess_syn_11 : guessCanonicalKey "mail" = some "email" := by
  decide

/-- Inference on the synonym "phone" returns the key phone. -/
theorem guess_syn_12 : guessCanonicalKey "phone" = some "phone" := by
  decide

/-- Inference on the synonym "telephone" returns the key phone. -/
theorem guess_syn_13 : guessCanonicalKey "telephone" = some "phone" := by
  decide

/-- Inference on the synonym "mobile" returns the key phone. -/
theorem guess_syn_14 : guessCanonicalKey "mobile" = some "phone" := by
  decide

/-- Inference on the synonym "cell" returns the key phone. -/
theorem guess_syn_15 : guessCanonicalKey "cell" = some "phone" := by
  decide

/-- Inference on the synonym "company" returns the key company. -/
theorem guess_syn_16 : guessCanonicalKey "company" = some "company" := by
  decide

/-- Inference on the synonym "organization" returns the key company. -/
theorem guess_syn_17 : guessCanonicalKey "organization" = some "company" := by
  decide

/-- Inference on the synonym "organisation" returns the key company. -/
theorem guess_syn_18 : guessCanonicalKey "organisation" = some "company" := by
  decide

/-- Inference on the synonym "employer" returns the key company. -/
theorem guess_syn_19 : guessCanonicalKey "employer" = some "company" := by
  decide

/-- Inference on the synonym "address" returns the key address_line1. -/
theorem guess_syn_20 : guessCanonicalKey "address" = some "address_line1" := by
  decide

/-- Inference on the synonym "street" returns the key address_line1. -/
theorem guess_syn_21 : guessCanonicalKey "street" = some "address_line1" := by
  decide

/-- Inference on the synonym "address line 1" returns the key address_line1. -/
theorem guess_syn_22 : guessCanonicalKey "address line 1" = some "address_line1" := by
  decide

/-- Inference on the synonym "addr1" returns the key address_line1. -/
theorem guess_syn_23 : guessCanonicalKey "addr1" = some "address_line1" := by
  decide

/-- Inference on the synonym "city" returns the key city. -/
theorem guess_syn_24 : guessCanonicalKey "city" = some "city" := by
  decide

/-- Inference on the synonym "town" returns the key city. -/
theorem guess_syn_25 : guessCanonicalKey "town" = some "city" := by
  decide

/-- Inference on the synonym "state" returns the key state. -/
theorem guess_syn_26 : guessCanonicalKey "state" = some "state" := by
  decide

/-- Inference on the synonym "region" returns the key state. -/
theorem guess_syn_27 : guessCanonicalKey "region" = some "state" := by
  decide

/-- Inference on the synonym "province" returns the key state. -/
theorem guess_syn_28 : guessCanonicalKey "province" = some "state" := by
  decide

/-- Inference on the synonym "county" returns the key state. -/
theorem guess_syn_29 : guessCanonicalKey "county" = some "state" := by
  decide

/-- Inference on the synonym "zip" returns the key postal_code. -/
theorem guess_syn_30 : guessCanonicalKey "zip" = some "postal_code" := by
  decide

/-- Inference on the synonym "zipcode" returns the key postal_code. -/
theorem guess_syn_31 : guessCanonicalKey "zipcode" = some "postal_code" := by
  decide

/-- Inference on the synonym "postal" returns the key postal_code. -/
theorem guess_syn_32 : guessCanonicalKey "postal" = some "postal_code" := by
  decide

/-- Inference on the synonym "postcode" returns the key postal_code. -/
theorem guess_syn_33 : guessCanonicalKey "postcode" = some "postal_code" := by
  decide

/-- Inference on the synonym "country" returns the key country. -/
theorem guess_syn_34 : guessCanonicalKey "country" = some "country" := by
  decide

/-- Inference on the synonym "nation" returns the key country. -/
theorem guess_syn_35 : guessCanonicalKey "nation" = some "country" := by
  decide

/-- Inference on the synonym "date of birth" returns the key dob. -/
theorem guess_syn_36 : guessCanonicalKey "date of birth" = some "dob" := by
  decide

/-- Inference on the synonym "birthday" returns the key dob. -/
theorem guess_syn_37 : guessCanonicalKey "birthday" = some "dob" := by
  decide

/-- Inference on the synonym "birth date" returns the key dob. -/
theorem guess_syn_38 : guessCanonicalKey "birth date" = some "dob" := by
  decide

/-- Inference on the synonym "dob" returns the key dob. -/
theorem guess_syn_39 : guessCanonicalKey "dob" = some "dob" := by
  decide

/-- Inference on the synonym "terms" returns the key accept_tos. -/
theorem guess_syn_40 : guessCanonicalKey "terms" = some "accept_tos" := by
  decide

/-- Inference on the synonym "tos" returns the key accept_tos. -/
theorem guess_syn_41 : guessCanonicalKey "tos" = some "accept_tos" := by
  decide

/-- Inference on the synonym "agree" returns the key accept_tos. -/
theorem guess_syn_42 : guessCanonicalKey "agree" = some "accept_tos" := by
  decide

/-- Inference on the synonym "agreement" returns the key accept_tos. -/
theorem guess_syn_43 : guessCanonicalKey "agreement" = some "accept_tos" := by
  decide

/-- Inference on the synonym "privacy" returns the key accept_tos. -/
theorem guess_syn_44 : guessCanonicalKey "privacy" = some "accept_tos" := by
  decide

/-- Claim C1: every canonical key of the vocabulary has a non-empty
synonym list, and inferring on a signature exactly equal to any of its
synonym phrases returns that key, whether through the ordered regex
rules or through the fuzzy fallback. -/
theorem canonical_synonym_exactness :
    CANONICAL_KEYS.all
      (fun p => (!p.2.isEmpty)
        && p.2.all (fun s => guessCanonicalKey s == some p.1)) = true := by
  simp only [CANONICAL_KEYS, List.all_cons, List.all_nil,
    guess_syn_01,
    guess_syn_02,
    guess_syn_03,
    guess_syn_04,
    guess_syn_05,
    guess_syn_06,
    guess_syn_07,
    guess_syn_08,
    guess_syn_09,
    guess_syn_10,
    guess_syn_11,
    guess_syn_12,
    guess_syn_13,
    guess_syn_14,
    guess_syn_15,
    guess_syn_16,
    guess_syn_17,
    guess_syn_18,
    guess_syn_19,
    guess_syn_20,
    guess_syn_21,
    guess_syn_22,
    guess_syn_23,
    guess_syn_24,
    guess_syn_25,
    guess_syn_26,
    guess_syn_27,
    guess_syn_28,
    guess_syn_29,
    guess_syn_30,
    guess_syn_31,
    guess_syn_32,
    guess_syn_33,
    guess_syn_34,
    guess_syn_35,
    guess_syn_36,
    guess_syn_37,
    guess_syn_38,
    guess_syn_39,
    guess_syn_40,
    guess_syn_41,
    guess_syn_42,
    guess_syn_43,
    guess_syn_44]
  decide
